import Mathlib

/-!
Shallow embedding of the multiplayer manager in `src/utils/multiplayer.ts`.

Modelling decisions:
* Timestamps (`createdAt`, `lastUpdated`, ISO strings compared through
  `new Date(...)` in the source) are modelled as `Nat`; the wall clock is an
  external collaborator, so every operation that stamps a timestamp takes
  the current clock reading `now : Nat` explicitly.
* The two `Map`s of the manager (`rooms`, `gameStates`) are modelled as
  functions `String → Option _`; `set`/`delete` become pointwise updates.
* `saveToStorage` (the write-through to the persistence adapter) is modelled
  by copying the in-memory maps into `storedRooms`/`storedGameStates`
  fields of the state; serialization details are outside the model.
* `syncWithOtherDevices` reads the shared snapshot, which other devices may
  have written; the snapshot is therefore an explicit parameter.
* The opaque `gameData` payload is modelled as `Nat` (its structure is never
  inspected by the core).
* `notifyListeners` runs each callback for effect; the embedding returns the
  ordered list of invocations (callback, payload) that one publish performs.
-/

namespace Multiplayer

/-- The status union of the `Room` interface: waiting, playing, finished. -/
inductive Status where
  | waiting
  | playing
  | finished
deriving DecidableEq, Repr

/-- The `Room` interface of `multiplayer.ts`. -/
structure Room where
  id : String
  name : String
  host : String
  players : List String
  game : String
  status : Status
  maxPlayers : Nat
  createdAt : Nat
  lastUpdated : Nat
deriving DecidableEq, Repr

/-- The `GameState` interface of `multiplayer.ts` (optional fields kept,
the opaque payloads modelled as `Nat`). -/
structure GameState where
  roomId : String
  currentPlayer : Option String
  gameData : Option Nat
  moves : Option (List Nat)
  lastUpdated : Nat
deriving DecidableEq, Repr

/-- The caller-assembled specification accepted by `createRoom`: every
`Room` field except `lastUpdated` (an Omit type in the source). -/
structure RoomSpec where
  id : String
  name : String
  host : String
  players : List String
  game : String
  status : Status
  maxPlayers : Nat
  createdAt : Nat
deriving DecidableEq, Repr

/-- Map insertion (`Map.set`) on a map modelled as a function. -/
def mset {α : Type} (m : String → Option α) (k : String) (v : α) :
    String → Option α :=
  fun k' => if k' = k then some v else m k'

/-- Map removal (`Map.delete`) on a map modelled as a function. -/
def mdel {α : Type} (m : String → Option α) (k : String) :
    String → Option α :=
  fun k' => if k' = k then none else m k'

/-- The mutable fields of `MultiplayerManager` relevant to room and game
state: the two in-memory maps, plus the externally persisted copies written
by `saveToStorage` (the write-through). -/
structure MPState where
  rooms : String → Option Room
  gameStates : String → Option GameState
  storedRooms : String → Option Room
  storedGameStates : String → Option GameState

/-- A manager state with empty maps and empty storage. -/
def emptyState : MPState :=
  { rooms := fun _ => none
    gameStates := fun _ => none
    storedRooms := fun _ => none
    storedGameStates := fun _ => none }

/-- The `saveToStorage` write-through of the in-memory maps to the persistence
adapter. -/
def saveToStorage (s : MPState) : MPState :=
  { s with storedRooms := s.rooms, storedGameStates := s.gameStates }

/-- The `createRoom(roomData)` operation: spreads the caller's specification, stamps
`lastUpdated` with the current clock reading, inserts, persists, and
returns the created room. -/
def createRoom (s : MPState) (roomData : RoomSpec) (now : Nat) :
    MPState × Room :=
  let room : Room :=
    { id := roomData.id
      name := roomData.name
      host := roomData.host
      players := roomData.players
      game := roomData.game
      status := roomData.status
      maxPlayers := roomData.maxPlayers
      createdAt := roomData.createdAt
      lastUpdated := now }
  (saveToStorage { s with rooms := mset s.rooms room.id room }, room)

/-- The `joinRoom(roomId, playerName)` operation. -/
def joinRoom (s : MPState) (roomId playerName : String) (now : Nat) :
    MPState × Option Room :=
  match s.rooms roomId with
  | none => (s, none)
  | some room =>
    if playerName ∈ room.players then
      (s, some room)  -- Already in room
    else if room.maxPlayers ≤ room.players.length then
      (s, none)  -- Room full
    else
      let updatedRoom : Room :=
        { room with
          players := room.players ++ [playerName]
          lastUpdated := now }
      (saveToStorage { s with rooms := mset s.rooms roomId updatedRoom },
       some updatedRoom)

/-- The `leaveRoom(roomId, playerName)` operation. -/
def leaveRoom (s : MPState) (roomId playerName : String) (now : Nat) :
    MPState × Option Room :=
  match s.rooms roomId with
  | none => (s, none)
  | some room =>
    let updatedPlayers := room.players.filter (fun p => p != playerName)
    if updatedPlayers.length = 0 then
      -- Remove empty room
      (saveToStorage
        { s with
          rooms := mdel s.rooms roomId
          gameStates := mdel s.gameStates roomId },
       none)
    else
      let updatedRoom : Room :=
        { room with
          players := updatedPlayers
          host :=
            if room.host = playerName ∧ 0 < updatedPlayers.length then
              updatedPlayers.headI
            else room.host
          lastUpdated := now }
      (saveToStorage { s with rooms := mset s.rooms roomId updatedRoom },
       some updatedRoom)

/-- The `updateRoomStatus(roomId, status)` operation. -/
def updateRoomStatus (s : MPState) (roomId : String) (status : Status)
    (now : Nat) : MPState × Option Room :=
  match s.rooms roomId with
  | none => (s, none)
  | some room =>
    let updatedRoom : Room := { room with status := status, lastUpdated := now }
    (saveToStorage { s with rooms := mset s.rooms roomId updatedRoom },
     some updatedRoom)

/-- The `getRoom(roomId)` lookup. -/
def getRoom (s : MPState) (roomId : String) : Option Room :=
  s.rooms roomId

/-- The `getGameState(roomId)` lookup. -/
def getGameState (s : MPState) (roomId : String) : Option GameState :=
  s.gameStates roomId

/-- The shared snapshot record read by `syncWithOtherDevices` (the
`addaMultiplayerSync` key: full room list + full game-state list). -/
structure SyncData where
  rooms : List Room
  gameStates : List GameState
deriving Repr

/-- One remote room processed by the reconciler: install it when there is no
local counterpart or when its `lastUpdated` is strictly greater. -/
def syncRoomStep (rooms : String → Option Room) (room : Room) :
    String → Option Room :=
  match rooms room.id with
  | none => mset rooms room.id room
  | some existing =>
    if existing.lastUpdated < room.lastUpdated then mset rooms room.id room
    else rooms

/-- One remote game state processed by the reconciler. -/
def syncGameStateStep (gameStates : String → Option GameState)
    (state : GameState) : String → Option GameState :=
  match gameStates state.roomId with
  | none => mset gameStates state.roomId state
  | some existing =>
    if existing.lastUpdated < state.lastUpdated then
      mset gameStates state.roomId state
    else gameStates

/-- One reconciler tick (`syncWithOtherDevices`): merge every entity of the
shared snapshot into the local maps, in snapshot order. Notifications carry
no state and are modelled separately through `notifyListeners`. -/
def syncWithOtherDevices (s : MPState) (data : SyncData) : MPState :=
  { s with
    rooms := data.rooms.foldl syncRoomStep s.rooms
    gameStates := data.gameStates.foldl syncGameStateStep s.gameStates }

/-- The `on(event, callback)` subscription: append the callback to the channel's ordered
list (a missing channel behaves as the empty list). Named `on'` because
`on` is a reserved word in Lean. -/
def on' {α : Type} (listeners : String → List α) (event : String)
    (callback : α) : String → List α :=
  fun e => if e = event then listeners e ++ [callback] else listeners e

/-- The `notifyListeners(event, data)` publish: run every callback registered on the
channel, in order, each applied to `data`. The embedding returns the
ordered invocation trace (callback, payload). -/
def notifyListeners {α β : Type} (listeners : String → List α)
    (event : String) (data : β) : List (α × β) :=
  (listeners event).map (fun callback => (callback, data))

/-! ### Helper lemmas -/

theorem headI_mem {l : List String} (h : l ≠ []) : l.headI ∈ l := by
  cases l with
  | nil => exact absurd rfl h
  | cons a t => exact List.mem_cons_self a t

theorem filter_ne_of_not_mem {l : List String} {p : String} (h : p ∉ l) :
    l.filter (fun q => q != p) = l := by
  induction l with
  | nil => rfl
  | cons a t ih =>
    have ha : a ≠ p := fun hap => h (hap ▸ List.mem_cons_self a t)
    have ht : p ∉ t := fun hpt => h (List.mem_cons_of_mem a hpt)
    simp [List.filter_cons, ha, ih ht]

/-! ### Concrete states used by witnesses -/

/-- A two-player room at capacity. -/
def roomW : Room :=
  { id := "R1", name := "Friends", host := "alice",
    players := ["alice", "bob"], game := "Spy", status := Status.waiting,
    maxPlayers := 2, createdAt := 1, lastUpdated := 3 }

/-- A game state attached to room `R1`. -/
def gsW : GameState :=
  { roomId := "R1", currentPlayer := some "alice", gameData := some 7,
    moves := some [1], lastUpdated := 2 }

/-- Manager state holding `roomW` and `gsW`. -/
def stW : MPState :=
  { emptyState with
    rooms := mset emptyState.rooms "R1" roomW
    gameStates := mset emptyState.gameStates "R1" gsW }

/-- A single-player room. -/
def roomSolo : Room :=
  { id := "R1", name := "Friends", host := "bob",
    players := ["bob"], game := "Spy", status := Status.waiting,
    maxPlayers := 2, createdAt := 1, lastUpdated := 4 }

/-- Manager state holding `roomSolo` and `gsW`. -/
def stSolo : MPState :=
  { emptyState with
    rooms := mset emptyState.rooms "R1" roomSolo
    gameStates := mset emptyState.gameStates "R1" gsW }

/-! ### C3: joinRoom is idempotent -/

/-- C3. If the player is already a member, `joinRoom` returns the room
unchanged and mutates nothing; consequently a second `joinRoom` with the
same player never changes the state reached by the first call. -/
theorem joinRoom_idempotent (s : MPState) (roomId playerName : String)
    (now now' : Nat) :
    (∀ room, s.rooms roomId = some room → playerName ∈ room.players →
      joinRoom s roomId playerName now = (s, some room)) ∧
    (joinRoom (joinRoom s roomId playerName now).1 roomId playerName now').1
      = (joinRoom s roomId playerName now).1 := by
  constructor
  · intro room hroom hmem
    simp [joinRoom, hroom, hmem]
  · cases hroom : s.rooms roomId with
    | none => simp [joinRoom, hroom]
    | some room =>
      by_cases hmem : playerName ∈ room.players
      · simp [joinRoom, hroom, hmem]
      · by_cases hfull : room.maxPlayers ≤ room.players.length
        · simp [joinRoom, hroom, hmem, hfull]
        · simp [joinRoom, hroom, hmem, hfull, saveToStorage, mset]

/-- Witness for C3 at a concrete state: `alice` is already in `roomW`. -/
theorem joinRoom_idempotent_witness :
    (stW.rooms "R1" = some roomW ∧ "alice" ∈ roomW.players) ∧
    joinRoom stW "R1" "alice" 9 = (stW, some roomW) ∧
    (joinRoom (joinRoom stW "R1" "alice" 9).1 "R1" "alice" 10).1
      = (joinRoom stW "R1" "alice" 9).1 :=
  ⟨⟨rfl, by decide⟩,
   (joinRoom_idempotent stW "R1" "alice" 9 10).1 roomW rfl (by decide),
   (joinRoom_idempotent stW "R1" "alice" 9 10).2⟩

/-! ### C4: joinRoom on a full room -/

/-- C4. Joining a full room with a player who is not already a member
returns `none` and leaves the whole manager state unchanged. -/
theorem joinRoom_full_no_mutation (s : MPState) (roomId playerName : String)
    (now : Nat) (room : Room)
    (hroom : s.rooms roomId = some room)
    (hmem : playerName ∉ room.players)
    (hfull : room.maxPlayers ≤ room.players.length) :
    joinRoom s roomId playerName now = (s, none) := by
  simp [joinRoom, hroom, hmem, hfull]

/-- Witness for C4: `carol` cannot join the full `roomW`. -/
theorem joinRoom_full_no_mutation_witness :
    (stW.rooms "R1" = some roomW ∧ "carol" ∉ roomW.players ∧
      roomW.maxPlayers ≤ roomW.players.length) ∧
    joinRoom stW "R1" "carol" 9 = (stW, none) :=
  ⟨⟨rfl, by decide, by decide⟩,
   joinRoom_full_no_mutation stW "R1" "carol" 9 roomW rfl (by decide)
     (by decide)⟩

/-! ### C5: leaveRoom deletes the room when the last player departs -/

/-- C5. When the room's player list is exactly `[p]`, `leaveRoom` returns
`none` and afterwards both `getRoom` and `getGameState` report absent. -/
theorem leaveRoom_last_player (s : MPState) (roomId p : String) (now : Nat)
    (room : Room)
    (hroom : s.rooms roomId = some room)
    (hplayers : room.players = [p]) :
    (leaveRoom s roomId p now).2 = none ∧
    getRoom (leaveRoom s roomId p now).1 roomId = none ∧
    getGameState (leaveRoom s roomId p now).1 roomId = none := by
  simp [leaveRoom, hroom, hplayers, List.filter_cons, saveToStorage, mdel,
    getRoom, getGameState]

/-- Witness for C5: `bob` leaves the single-player `roomSolo`. -/
theorem leaveRoom_last_player_witness :
    (stSolo.rooms "R1" = some roomSolo ∧ roomSolo.players = ["bob"]) ∧
    (leaveRoom stSolo "R1" "bob" 9).2 = none ∧
    getRoom (leaveRoom stSolo "R1" "bob" 9).1 "R1" = none ∧
    getGameState (leaveRoom stSolo "R1" "bob" 9).1 "R1" = none :=
  ⟨⟨rfl, by decide⟩,
   leaveRoom_last_player stSolo "R1" "bob" 9 roomSolo rfl (by decide)⟩

/-! ### C6: leaveRoom host reassignment -/

/-- C6. When players remain after a departure, the new host is the first
remaining player when the departing player was the host, and the old host
otherwise. -/
theorem leaveRoom_host_reassignment (s : MPState) (roomId p : String)
    (now : Nat) (room : Room)
    (hroom : s.rooms roomId = some room)
    (hne : room.players.filter (fun q => q != p) ≠ []) :
    ∃ room', (leaveRoom s roomId p now).2 = some room' ∧
      (room.host = p →
        room'.host = (room.players.filter (fun q => q != p)).headI) ∧
      (room.host ≠ p → room'.host = room.host) := by
  have hlen : ¬ (room.players.filter (fun q => q != p)).length = 0 := by
    simpa [List.length_eq_zero] using hne
  have hpos : 0 < (room.players.filter (fun q => q != p)).length :=
    Nat.pos_of_ne_zero hlen
  have hstep : (leaveRoom s roomId p now).2 =
      some { room with
        players := room.players.filter (fun q => q != p)
        host :=
          if room.host = p ∧ 0 < (room.players.filter (fun q => q != p)).length
          then (room.players.filter (fun q => q != p)).headI
          else room.host
        lastUpdated := now } := by
    simp [leaveRoom, hroom, hlen]
  refine ⟨_, hstep, ?_, ?_⟩
  · intro hhost
    simp [hhost, hpos]
  · intro hhost
    simp [hhost]

/-- Witness for C6: `alice` (the host) leaves `roomW`; `bob` remains. -/
theorem leaveRoom_host_reassignment_witness :
    (stW.rooms "R1" = some roomW ∧
      roomW.players.filter (fun q => q != "alice") ≠ []) ∧
    ∃ room', (leaveRoom stW "R1" "alice" 9).2 = some room' ∧
      (roomW.host = "alice" →
        room'.host = (roomW.players.filter (fun q => q != "alice")).headI) ∧
      (roomW.host ≠ "alice" → room'.host = roomW.host) :=
  ⟨⟨rfl, by decide⟩,
   leaveRoom_host_reassignment stW "R1" "alice" 9 roomW rfl (by decide)⟩

/-! ### C1: createRoom -/

/-- A caller-assembled specification whose player list is not `[host]` and
whose status is not `waiting`; `createRoom` performs no normalization. -/
def badSpec : RoomSpec :=
  { id := "R2", name := "Friends", host := "alice",
    players := ["alice", "bob"], game := "Spy", status := Status.playing,
    maxPlayers := 4, createdAt := 0 }

/-- C1 counterexample. `createRoom` copies the caller's fields verbatim:
for a specification with `players ≠ [host]` and `status ≠ waiting`, the
returned (and stored) room keeps the caller's values, refuting the claim
quantified over every specification. -/
theorem createRoom_counterexample :
    (createRoom emptyState badSpec 5).2.players ≠ [badSpec.host] ∧
    (createRoom emptyState badSpec 5).2.status ≠ Status.waiting := by
  decide

/-- C1 amended. `createRoom` copies the specification's fields and stamps
`lastUpdated` with the clock reading; hence whenever the caller supplies
`players = [host]` and `status = waiting` (as the repository's only call
site does), the returned room and the stored room have `players = [host]`,
`status = waiting`, and a freshly stamped `lastUpdated`. -/
theorem createRoom_spec (s : MPState) (roomData : RoomSpec) (now : Nat)
    (hplayers : roomData.players = [roomData.host])
    (hstatus : roomData.status = Status.waiting) :
    (createRoom s roomData now).2.players
      = [(createRoom s roomData now).2.host] ∧
    (createRoom s roomData now).2.status = Status.waiting ∧
    (createRoom s roomData now).2.lastUpdated = now ∧
    (createRoom s roomData now).1.rooms roomData.id
      = some (createRoom s roomData now).2 := by
  refine ⟨?_, ?_, ?_, ?_⟩ <;>
    simp [createRoom, saveToStorage, mset, hplayers, hstatus]

/-- A well-formed specification as assembled by the UI caller. -/
def goodSpec : RoomSpec :=
  { id := "R3", name := "Friends", host := "alice",
    players := ["alice"], game := "Spy", status := Status.waiting,
    maxPlayers := 4, createdAt := 0 }

/-- Witness for the amended C1 at a concrete specification. -/
theorem createRoom_spec_witness :
    (goodSpec.players = [goodSpec.host] ∧
      goodSpec.status = Status.waiting) ∧
    (createRoom emptyState goodSpec 5).2.players
      = [(createRoom emptyState goodSpec 5).2.host] ∧
    (createRoom emptyState goodSpec 5).2.status = Status.waiting ∧
    (createRoom emptyState goodSpec 5).2.lastUpdated = 5 ∧
    (createRoom emptyState goodSpec 5).1.rooms goodSpec.id
      = some (createRoom emptyState goodSpec 5).2 :=
  ⟨⟨by decide, by decide⟩,
   createRoom_spec emptyState goodSpec 5 (by decide) (by decide)⟩

/-! ### C2: the reconciler merge law -/

/-- C2. One reconciler tick over a snapshot containing the remote room `r`
and the remote game state `g`, for each entity kind: with no local
counterpart the remote entity is installed; with a local counterpart the
remote entity replaces it exactly when the remote `lastUpdated` is strictly
greater, and otherwise (ties included) the local entity is kept
unchanged. -/
theorem sync_merge_law (s : MPState) (r : Room) (g : GameState) :
    (s.rooms r.id = none →
      (syncWithOtherDevices s ⟨[r], [g]⟩).rooms r.id = some r) ∧
    (∀ existing, s.rooms r.id = some existing →
      (existing.lastUpdated < r.lastUpdated →
        (syncWithOtherDevices s ⟨[r], [g]⟩).rooms r.id = some r) ∧
      (r.lastUpdated ≤ existing.lastUpdated →
        (syncWithOtherDevices s ⟨[r], [g]⟩).rooms r.id = some existing)) ∧
    (s.gameStates g.roomId = none →
      (syncWithOtherDevices s ⟨[r], [g]⟩).gameStates g.roomId = some g) ∧
    (∀ existing, s.gameStates g.roomId = some existing →
      (existing.lastUpdated < g.lastUpdated →
        (syncWithOtherDevices s ⟨[r], [g]⟩).gameStates g.roomId = some g) ∧
      (g.lastUpdated ≤ existing.lastUpdated →
        (syncWithOtherDevices s ⟨[r], [g]⟩).gameStates g.roomId
          = some existing)) := by
  refine ⟨?_, ?_, ?_, ?_⟩
  · intro hnone
    simp [syncWithOtherDevices, syncRoomStep, hnone, mset]
  · intro existing hsome
    constructor
    · intro hlt
      simp [syncWithOtherDevices, syncRoomStep, hsome, hlt, mset]
    · intro hle
      simp [syncWithOtherDevices, syncRoomStep, hsome, Nat.not_lt.mpr hle]
  · intro hnone
    simp [syncWithOtherDevices, syncGameStateStep, hnone, mset]
  · intro existing hsome
    constructor
    · intro hlt
      simp [syncWithOtherDevices, syncGameStateStep, hsome, hlt, mset]
    · intro hle
      simp [syncWithOtherDevices, syncGameStateStep, hsome,
        Nat.not_lt.mpr hle]

/-- A remote copy of `roomW` with a strictly newer timestamp. -/
def roomRemoteNew : Room := { roomW with name := "Renamed", lastUpdated := 9 }

/-- A remote copy of `roomW` with the same timestamp (a tie). -/
def roomRemoteTie : Room := { roomW with name := "Renamed", lastUpdated := 3 }

/-- A remote room with no local counterpart in `stW`. -/
def roomRemoteFresh : Room := { roomW with id := "R9", lastUpdated := 1 }

/-- A remote copy of `gsW` with a strictly newer timestamp. -/
def gsRemoteNew : GameState := { gsW with gameData := some 8, lastUpdated := 9 }

/-- A remote copy of `gsW` with the same timestamp (a tie). -/
def gsRemoteTie : GameState := { gsW with gameData := some 8, lastUpdated := 2 }

/-- A remote game state with no local counterpart in `stW`. -/
def gsRemoteFresh : GameState := { gsW with roomId := "R9", lastUpdated := 1 }

/-- Witness for C2, for both entity kinds: install on strictly newer, keep
on tie, install on missing counterpart, at concrete states. -/
theorem sync_merge_law_witness :
    (stW.rooms roomRemoteFresh.id = none ∧
      (syncWithOtherDevices stW ⟨[roomRemoteFresh], [gsRemoteFresh]⟩).rooms
        roomRemoteFresh.id = some roomRemoteFresh) ∧
    (stW.rooms roomRemoteNew.id = some roomW ∧
      roomW.lastUpdated < roomRemoteNew.lastUpdated ∧
      (syncWithOtherDevices stW ⟨[roomRemoteNew], [gsRemoteNew]⟩).rooms
        roomRemoteNew.id = some roomRemoteNew) ∧
    (stW.rooms roomRemoteTie.id = some roomW ∧
      roomRemoteTie.lastUpdated ≤ roomW.lastUpdated ∧
      (syncWithOtherDevices stW ⟨[roomRemoteTie], [gsRemoteTie]⟩).rooms
        roomRemoteTie.id = some roomW) ∧
    (stW.gameStates gsRemoteFresh.roomId = none ∧
      (syncWithOtherDevices stW
          ⟨[roomRemoteFresh], [gsRemoteFresh]⟩).gameStates
        gsRemoteFresh.roomId = some gsRemoteFresh) ∧
    (stW.gameStates gsRemoteNew.roomId = some gsW ∧
      gsW.lastUpdated < gsRemoteNew.lastUpdated ∧
      (syncWithOtherDevices stW
          ⟨[roomRemoteNew], [gsRemoteNew]⟩).gameStates
        gsRemoteNew.roomId = some gsRemoteNew) ∧
    (stW.gameStates gsRemoteTie.roomId = some gsW ∧
      gsRemoteTie.lastUpdated ≤ gsW.lastUpdated ∧
      (syncWithOtherDevices stW
          ⟨[roomRemoteTie], [gsRemoteTie]⟩).gameStates
        gsRemoteTie.roomId = some gsW) :=
  ⟨⟨by decide,
    (sync_merge_law stW roomRemoteFresh gsRemoteFresh).1 (by decide)⟩,
   ⟨by decide, by decide,
    ((sync_merge_law stW roomRemoteNew gsRemoteNew).2.1 roomW
      (by decide)).1 (by decide)⟩,
   ⟨by decide, by decide,
    ((sync_merge_law stW roomRemoteTie gsRemoteTie).2.1 roomW
      (by decide)).2 (by decide)⟩,
   ⟨by decide,
    (sync_merge_law stW roomRemoteFresh gsRemoteFresh).2.2.1 (by decide)⟩,
   ⟨by decide, by decide,
    ((sync_merge_law stW roomRemoteNew gsRemoteNew).2.2.2 gsW
      (by decide)).1 (by decide)⟩,
   ⟨by decide, by decide,
    ((sync_merge_law stW roomRemoteTie gsRemoteTie).2.2.2 gsW
      (by decide)).2 (by decide)⟩⟩

/-! ### C7: the publish law -/

/-- C7. One publish on a channel invokes exactly the registered callbacks,
each once per registration, in registration order (the trace projects to
the registration list, and the i-th invocation carries the i-th callback);
registering the same callback twice via `on'` yields two invocations of it
per publish. -/
theorem publish_law {α β : Type} [DecidableEq α] (listeners : String → List α)
    (event : String) (data : β) (c : α) (i : Nat)
    (h : i < (listeners event).length) :
    (notifyListeners listeners event data).map Prod.fst = listeners event ∧
    (notifyListeners listeners event data)[i]?
      = some ((listeners event).get ⟨i, h⟩, data) ∧
    ((notifyListeners (on' (on' listeners event c) event c) event data).map
        Prod.fst).count c
      = ((notifyListeners listeners event data).map Prod.fst).count c + 2 := by
  refine ⟨?_, ?_, ?_⟩
  · show List.map Prod.fst (List.map _ _) = _
    rw [List.map_map]
    show List.map id (listeners event) = listeners event
    exact List.map_id _
  · simp [notifyListeners, List.getElem?_map, List.getElem?_eq_getElem h]
  · simp [notifyListeners, on', List.count_append]

/-- A concrete listener registry on channel `ch` with callbacks 5 and 6. -/
def listeners0 : String → List Nat := fun e => if e = "ch" then [5, 6] else []

/-- Witness for C7 at a concrete registry, payload 42, callback 7, index 1. -/
theorem publish_law_witness :
    (1 < (listeners0 "ch").length) ∧
    (notifyListeners listeners0 "ch" 42).map Prod.fst = listeners0 "ch" ∧
    (notifyListeners listeners0 "ch" 42)[1]?
      = some ((listeners0 "ch").get ⟨1, by decide⟩, 42) ∧
    ((notifyListeners (on' (on' listeners0 "ch" 7) "ch" 7) "ch" 42).map
        Prod.fst).count 7
      = ((notifyListeners listeners0 "ch" 42).map Prod.fst).count 7 + 2 :=
  ⟨by decide, publish_law listeners0 "ch" 42 7 1 (by decide)⟩

/-! ### C8: room invariants across the lifecycle API -/

/-- The room invariant of the data model: the player count is bounded by
the capacity, the host is a member, and the player list is non-empty. -/
def roomInv (r : Room) : Prop :=
  r.players.length ≤ r.maxPlayers ∧ r.host ∈ r.players ∧ r.players ≠ []

/-- Every room stored in a room map satisfies the room invariant. -/
def invMap (m : String → Option Room) : Prop :=
  ∀ k room, m k = some room → roomInv room

/-- Every room stored in the repository satisfies the room invariant. -/
def invRepo (s : MPState) : Prop :=
  invMap s.rooms

theorem invMap_mset {m : String → Option Room} {k : String} {room : Room}
    (h : invMap m) (hr : roomInv room) : invMap (mset m k room) := by
  intro k' r' h'
  by_cases hk : k' = k
  · subst hk
    simp [mset] at h'
    exact h' ▸ hr
  · simp only [mset, if_neg hk] at h'
    exact h k' r' h'

theorem invMap_mdel {m : String → Option Room} {k : String}
    (h : invMap m) : invMap (mdel m k) := by
  intro k' r' h'
  by_cases hk : k' = k
  · simp [mdel, hk] at h'
  · simp only [mdel, if_neg hk] at h'
    exact h k' r' h'

/-- A specification with an empty player list: `createRoom` stores it
without any validation. -/
def emptySpec : RoomSpec :=
  { id := "R4", name := "Ghost", host := "alice", players := [],
    game := "Spy", status := Status.waiting, maxPlayers := 4,
    createdAt := 0 }

/-- The room `createRoom` builds from `emptySpec` at clock reading 5. -/
def ghostRoom : Room :=
  { id := "R4", name := "Ghost", host := "alice", players := [],
    game := "Spy", status := Status.waiting, maxPlayers := 4,
    createdAt := 0, lastUpdated := 5 }

/-- C8 counterexample. Starting from a repository satisfying the
invariant, `createRoom` with an empty player list stores a room with zero
players, so the lifecycle API does not preserve the invariant. -/
theorem lifecycle_invariant_counterexample :
    invRepo emptyState ∧ ¬ invRepo (createRoom emptyState emptySpec 5).1 := by
  constructor
  · intro k room hk
    simp [emptyState] at hk
  · intro hinv
    have hlook : (createRoom emptyState emptySpec 5).1.rooms "R4"
        = some ghostRoom := by decide
    exact (hinv "R4" ghostRoom hlook).2.2 rfl

/-- C8 amended. `joinRoom`, `leaveRoom` and `updateRoomStatus` preserve
the repository invariant; `createRoom` preserves it provided the supplied
specification itself satisfies the room invariant (which `createRoom` does
not check). -/
theorem lifecycle_preserves_invariants (s : MPState) (roomData : RoomSpec)
    (roomId playerName : String) (status : Status) (now : Nat)
    (hinv : invRepo s) :
    (roomData.players.length ≤ roomData.maxPlayers →
      roomData.host ∈ roomData.players → roomData.players ≠ [] →
      invRepo (createRoom s roomData now).1) ∧
    invRepo (joinRoom s roomId playerName now).1 ∧
    invRepo (leaveRoom s roomId playerName now).1 ∧
    invRepo (updateRoomStatus s roomId status now).1 := by
  refine ⟨?_, ?_, ?_, ?_⟩
  · intro h1 h2 h3
    exact invMap_mset hinv ⟨h1, h2, h3⟩
  · cases hroom : s.rooms roomId with
    | none => simpa [joinRoom, hroom] using hinv
    | some room =>
      have hr := hinv roomId room hroom
      by_cases hmem : playerName ∈ room.players
      · simpa [joinRoom, hroom, hmem] using hinv
      · by_cases hfull : room.maxPlayers ≤ room.players.length
        · simpa [joinRoom, hroom, hmem, hfull] using hinv
        · have hgoal : invMap (mset s.rooms roomId
              { room with
                players := room.players ++ [playerName]
                lastUpdated := now }) := by
            refine invMap_mset hinv ⟨?_, ?_, ?_⟩
            · simpa using Nat.not_le.mp hfull
            · exact List.mem_append_left _ hr.2.1
            · simp
          simpa [joinRoom, hroom, hmem, hfull, saveToStorage] using hgoal
  · cases hroom : s.rooms roomId with
    | none => simpa [leaveRoom, hroom] using hinv
    | some room =>
      have hr := hinv roomId room hroom
      by_cases hlen :
          (room.players.filter (fun p => p != playerName)).length = 0
      · simpa [leaveRoom, hroom, hlen, saveToStorage] using invMap_mdel hinv
      · have hfilne : room.players.filter (fun p => p != playerName) ≠ [] :=
          fun heq => hlen (by simp [heq])
        have hpos :
            0 < (room.players.filter (fun p => p != playerName)).length :=
          Nat.pos_of_ne_zero hlen
        have hgoal : invMap (mset s.rooms roomId
            { room with
              players := room.players.filter (fun p => p != playerName)
              host :=
                if room.host = playerName ∧
                    0 < (room.players.filter
                      (fun p => p != playerName)).length then
                  (room.players.filter (fun p => p != playerName)).headI
                else room.host
              lastUpdated := now }) := by
          refine invMap_mset hinv ⟨?_, ?_, ?_⟩
          · exact le_trans (List.length_filter_le _ _) hr.1
          · by_cases hc : room.host = playerName ∧
                0 < (room.players.filter (fun p => p != playerName)).length
            · simpa [hc] using headI_mem hfilne
            · have hhostne : room.host ≠ playerName :=
                fun heq => hc ⟨heq, hpos⟩
              simp only [if_neg hc]
              exact List.mem_filter.mpr ⟨hr.2.1, by simpa using hhostne⟩
          · exact hfilne
        simpa [leaveRoom, hroom, hlen, saveToStorage] using hgoal
  · cases hroom : s.rooms roomId with
    | none => simpa [updateRoomStatus, hroom] using hinv
    | some room =>
      have hr := hinv roomId room hroom
      have hgoal : invMap (mset s.rooms roomId
          { room with status := status, lastUpdated := now }) :=
        invMap_mset hinv ⟨hr.1, hr.2.1, hr.2.2⟩
      simpa [updateRoomStatus, hroom, saveToStorage] using hgoal

/-- The concrete state `stW` satisfies the repository invariant. -/
theorem invRepo_stW : invRepo stW := by
  intro k room hk
  by_cases hkey : k = "R1"
  · subst hkey
    have : room = roomW := by
      simpa [stW, emptyState, mset] using hk.symm
    subst this
    exact ⟨by decide, by decide, by decide⟩
  · simp [stW, emptyState, mset, hkey] at hk

/-- Witness for the amended C8 at concrete inputs. -/
theorem lifecycle_preserves_invariants_witness :
    (goodSpec.players.length ≤ goodSpec.maxPlayers ∧
      goodSpec.host ∈ goodSpec.players ∧ goodSpec.players ≠ []) ∧
    invRepo (createRoom stW goodSpec 9).1 ∧
    invRepo (joinRoom stW "R1" "carol" 9).1 ∧
    invRepo (leaveRoom stW "R1" "carol" 9).1 ∧
    invRepo (updateRoomStatus stW "R1" Status.playing 9).1 := by
  have T := lifecycle_preserves_invariants stW goodSpec "R1" "carol"
    Status.playing 9 invRepo_stW
  exact ⟨⟨by decide, by decide, by decide⟩,
    T.1 (by decide) (by decide) (by decide), T.2.1, T.2.2.1, T.2.2.2⟩

/-! ### C9: the conflict-resolution clock -/

/-- A room stamped at clock reading 5, with spare capacity. -/
def roomC9 : Room :=
  { id := "R1", name := "Friends", host := "alice", players := ["alice"],
    game := "Spy", status := Status.waiting, maxPlayers := 4,
    createdAt := 1, lastUpdated := 5 }

/-- Manager state holding `roomC9`. -/
def stC9 : MPState :=
  { emptyState with rooms := mset emptyState.rooms "R1" roomC9 }

/-- C9 counterexample. A mutating `joinRoom` performed while the wall
clock still reads the room's current `lastUpdated` (two mutations within
the same timestamp granularity) genuinely changes `players` yet leaves
`lastUpdated` equal, not strictly greater. -/
theorem lastUpdated_counterexample :
    stC9.rooms "R1" = some roomC9 ∧
    (joinRoom stC9 "R1" "bob" 5).2.map Room.players
      = some ["alice", "bob"] ∧
    (joinRoom stC9 "R1" "bob" 5).2.map Room.lastUpdated
      = some roomC9.lastUpdated := by
  decide

/-- C9 amended. Every mutating operation stamps `lastUpdated` with the
current clock reading, so `lastUpdated` strictly increases exactly when
the clock reading strictly exceeds the room's previous `lastUpdated`. -/
theorem lastUpdated_tracks_clock (s : MPState) (roomId playerName : String)
    (status : Status) (now : Nat) (room : Room)
    (hroom : s.rooms roomId = some room)
    (hclock : room.lastUpdated < now) :
    (playerName ∉ room.players → room.players.length < room.maxPlayers →
      ∀ r', (joinRoom s roomId playerName now).2 = some r' →
        room.lastUpdated < r'.lastUpdated) ∧
    (room.players.filter (fun q => q != playerName) ≠ [] →
      ∀ r', (leaveRoom s roomId playerName now).2 = some r' →
        room.lastUpdated < r'.lastUpdated) ∧
    (∀ r', (updateRoomStatus s roomId status now).2 = some r' →
      room.lastUpdated < r'.lastUpdated) := by
  refine ⟨?_, ?_, ?_⟩
  · intro hmem hlt r' hr'
    have hfull : ¬ room.maxPlayers ≤ room.players.length := Nat.not_le.mpr hlt
    simp [joinRoom, hroom, hmem, hfull] at hr'
    rw [← hr']
    exact hclock
  · intro hne r' hr'
    have hlen : ¬ (room.players.filter (fun q => q != playerName)).length = 0 := by
      simpa [List.length_eq_zero] using hne
    simp [leaveRoom, hroom, hlen] at hr'
    rw [← hr']
    exact hclock
  · intro r' hr'
    simp [updateRoomStatus, hroom] at hr'
    rw [← hr']
    exact hclock

/-- The room produced by joining `bob` to `roomC9` at clock reading 9. -/
def roomC9joined : Room :=
  { roomC9 with players := ["alice", "bob"], lastUpdated := 9 }

/-- Witness for the amended C9: with the clock strictly ahead of the
room's stamp, a mutating join strictly increases `lastUpdated`. -/
theorem lastUpdated_tracks_clock_witness :
    (stC9.rooms "R1" = some roomC9 ∧ roomC9.lastUpdated < 9 ∧
      "bob" ∉ roomC9.players ∧
      roomC9.players.length < roomC9.maxPlayers ∧
      (joinRoom stC9 "R1" "bob" 9).2 = some roomC9joined) ∧
    roomC9.lastUpdated < roomC9joined.lastUpdated := by
  have T := lastUpdated_tracks_clock stC9 "R1" "bob" Status.playing 9 roomC9
    (by decide) (by decide)
  exact ⟨⟨by decide, by decide, by decide, by decide, by decide⟩,
    T.1 (by decide) (by decide) roomC9joined (by decide)⟩

/-! ### C10: leaveRoom for a non-member is not a no-op -/

/-- C10. For an existing room and a departing name that is not a member
(with the data-model invariant that the host is a member), `leaveRoom`
keeps `players` and `host` unchanged but stamps a fresh `lastUpdated`,
re-stores the room in the repository, and write-through persists. -/
theorem leaveRoom_nonmember (s : MPState) (roomId playerName : String)
    (now : Nat) (room : Room)
    (hroom : s.rooms roomId = some room)
    (hnm : playerName ∉ room.players)
    (hne : room.players ≠ [])
    (hhost : room.host ∈ room.players) :
    ∃ room',
      (leaveRoom s roomId playerName now).2 = some room' ∧
      room'.players = room.players ∧
      room'.host = room.host ∧
      room'.lastUpdated = now ∧
      (leaveRoom s roomId playerName now).1.rooms roomId = some room' ∧
      (leaveRoom s roomId playerName now).1.storedRooms
        = (leaveRoom s roomId playerName now).1.rooms := by
  have hfilter := filter_ne_of_not_mem hnm
  have hlen : ¬ (room.players.filter (fun q => q != playerName)).length = 0 := by
    rw [hfilter]
    simpa [List.length_eq_zero] using hne
  have hhostne : room.host ≠ playerName := fun h => hnm (h ▸ hhost)
  have hstep : leaveRoom s roomId playerName now =
      (saveToStorage
        { s with rooms := mset s.rooms roomId { room with lastUpdated := now } },
       some { room with lastUpdated := now }) := by
    simp [leaveRoom, hlen, hroom, hfilter, hhostne, hne]
  refine ⟨{ room with lastUpdated := now }, by rw [hstep], rfl, rfl, rfl, ?_, ?_⟩
  · rw [hstep]
    simp [saveToStorage, mset]
  · rw [hstep]
    rfl

/-- Witness for C10: `carol` (not a member) leaves `roomW`. -/
theorem leaveRoom_nonmember_witness :
    (stW.rooms "R1" = some roomW ∧ "carol" ∉ roomW.players ∧
      roomW.players ≠ [] ∧ roomW.host ∈ roomW.players) ∧
    ∃ room', (leaveRoom stW "R1" "carol" 9).2 = some room' ∧
      room'.players = roomW.players ∧
      room'.host = roomW.host ∧
      room'.lastUpdated = 9 ∧
      (leaveRoom stW "R1" "carol" 9).1.rooms "R1" = some room' ∧
      (leaveRoom stW "R1" "carol" 9).1.storedRooms
        = (leaveRoom stW "R1" "carol" 9).1.rooms :=
  ⟨⟨by decide, by decide, by decide, by decide⟩,
   leaveRoom_nonmember stW "R1" "carol" 9 roomW (by decide) (by decide)
     (by decide) (by decide)⟩

end Multiplayer
